import Mathlib

/-!
Shallow embedding of the BE_coderr marketplace backend (Django/DRF) and
proofs of the frozen specification claims.

Source layout mirrored here:
- accounts_app : custom User model and profile serializer
- offers_app   : Offer / OfferDetail models, create/update serializers, permissions
- orders_app   : Order model, create / status-update serializers, count views
- reviews_app  : Review model, serializer validation, base-info aggregate view

Conventions of the embedding:
- Django model rows become Lean structures; primary keys are Nat.
- DecimalField price becomes ℚ; integer columns become Int.
- The persistent store is a structure of lists of rows; each ORM write is a
  pure function on the store.  Django runs in autocommit mode here (the source
  opens no transaction.atomic block), so each successful INSERT/UPDATE commits
  individually; a write that fails leaves the previously committed rows behind.
- Fallible request handlers return Except/Option.
-/

namespace Coderr

/-- OfferDetail.OFFER_TYPE_CHOICES from offers_app/models.py. -/
inductive OfferType where
  | basic
  | standard
  | premium
deriving DecidableEq, Repr

/-- Order.STATUS_CHOICES from orders_app/models.py. -/
inductive OrderStatus where
  | in_progress
  | completed
  | cancelled
deriving DecidableEq, Repr

/-- USER_TYPE_CHOICES from accounts_app/models.py. -/
inductive UserType where
  | customer
  | business
deriving DecidableEq, Repr

/-- The required set literal in OfferCreateSerializer.validate_details:
required = \x7b'basic', 'standard', 'premium'\x7d. -/
def requiredTypes : Finset String := {"basic", "standard", "premium"}

/-- OfferCreateSerializer.validate_details (offers_app/api/serializers.py,
lines 133-152), restricted to the list of offer_type strings it inspects:
types = [d['offer_type'] for d in value]; the check raises ValidationError
when set(types) != required or len(types) != 3, i.e. it accepts exactly when
set(types) = required and len(types) = 3. -/
def validate_details (types : List String) : Bool :=
  decide (types.toFinset = requiredTypes) && decide (types.length = 3)

/-- String value of an OfferType choice, as stored in the CharField. -/
def OfferType.str : OfferType → String
  | .basic => "basic"
  | .standard => "standard"
  | .premium => "premium"

/-- String value of a UserType choice. -/
def UserType.str : UserType → String
  | .customer => "customer"
  | .business => "business"

/-- accounts_app/models.py User row.  CharField/TextField columns are
non-nullable (blank=True, null absent), so they are plain String here.
The field named file is the optional profile image.
Modelled from the spec: the optional image reference (the serializer field
list in accounts_app/api/serializers.py names a writable field file which is
absent from the User model in src) is embedded as an Option String. -/
structure User where
  id : Nat
  username : String
  first_name : String
  last_name : String
  email : String
  type : UserType
  location : String
  tel : String
  description : String
  working_hours : String
  is_staff : Bool
  file : Option String
  created_at : Nat
  updated_at : Nat
deriving DecidableEq, Repr

/-- offers_app/models.py Offer row; user is the FK to the owning User. -/
structure Offer where
  id : Nat
  user : Nat
  title : String
  image : Option String
  description : String
  created_at : Nat
  updated_at : Nat
deriving DecidableEq, Repr

/-- offers_app/models.py OfferDetail row; offer is the FK to the parent
Offer; DecimalField price is embedded as ℚ. -/
structure OfferDetail where
  id : Nat
  offer : Nat
  title : String
  revisions : Int
  delivery_time_in_days : Int
  price : ℚ
  features : List String
  offer_type : OfferType
deriving DecidableEq, Repr

/-- orders_app/models.py Order row. -/
structure Order where
  id : Nat
  customer_user : Nat
  business_user : Nat
  offer_detail : Nat
  status : OrderStatus
deriving DecidableEq, Repr

/-- reviews_app/models.py Review row. -/
structure Review where
  id : Nat
  business_user : Nat
  reviewer : Nat
  rating : Int
  description : String
deriving DecidableEq, Repr

/-- The persistent store: one list of rows per table. -/
structure Store where
  users : List User
  offers : List Offer
  details : List OfferDetail
  orders : List Order
  reviews : List Review
deriving DecidableEq, Repr

/-- The empty database. -/
def emptyStore : Store := ⟨[], [], [], [], []⟩

/-- A fresh primary key: strictly greater than every existing id. -/
def freshId (ids : List Nat) : Nat := ids.foldr (fun a b => max a b) 0 + 1

/-- One validated entry of the details list accepted by
OfferCreateSerializer (offer_type has already passed the ChoiceField). -/
structure DetailData where
  title : String
  revisions : Int
  delivery_time_in_days : Int
  price : ℚ
  features : List String
  offer_type : OfferType
deriving DecidableEq, Repr

/-- Row built by OfferDetail.objects.create(offer=offer, **detail_data). -/
def mkOfferDetail (did oid : Nat) (d : DetailData) : OfferDetail :=
  ⟨did, oid, d.title, d.revisions, d.delivery_time_in_days, d.price, d.features, d.offer_type⟩

/-- The loop in OfferCreateSerializer.create (offers_app/api/serializers.py,
lines 166-167): one INSERT per detail entry.  The source wraps the sequence in
no transaction, so Django autocommit applies: every successful INSERT commits
individually.  failAt models which single INSERT (by position) the database
rejects, none meaning all succeed; a failing INSERT raises, aborting the loop
but leaving all previously committed rows in the store. -/
def insert_details : Store → Nat → Nat → Option Nat → List DetailData → Store × Bool
  | s, _, _, _, [] => (s, true)
  | s, oid, idx, failAt, d :: rest =>
    if failAt = some idx then (s, false)
    else
      insert_details
        { s with details :=
            s.details ++ [mkOfferDetail (freshId (s.details.map OfferDetail.id)) oid d] }
        oid (idx + 1) failAt rest

/-- POST /api/offers/ (OfferCreateSerializer.validate_details followed by
OfferCreateSerializer.create, offers_app/api/serializers.py lines 133-169;
perform_create supplies the requesting user).  On validation failure nothing
is written.  On success the Offer row is inserted first, then the detail rows
one by one via insert_details. -/
def offer_create (s : Store) (userId : Nat) (title descr : String)
    (image : Option String) (details : List DetailData) (now : Nat)
    (failAt : Option Nat) : Store × Bool :=
  if validate_details (details.map (fun d => d.offer_type.str)) then
    let oid := freshId (s.offers.map Offer.id)
    insert_details
      { s with offers := s.offers ++ [⟨oid, userId, title, image, descr, now, now⟩] }
      oid 0 failAt details
  else (s, false)

/-- One entry of the details list accepted by OfferUpdateSerializer: every
field is optional except offer_type, which identifies the package. -/
structure DetailPatch where
  offer_type : OfferType
  title : Option String
  revisions : Option Int
  delivery_time_in_days : Option Int
  price : Option ℚ
  features : Option (List String)
deriving DecidableEq, Repr

/-- The validated body of a PATCH /api/offers/(id)/ request.  image is doubly
optional: the outer Option is key presence, the inner one nullability. -/
structure OfferPatch where
  title : Option String
  description : Option String
  image : Option (Option String)
  details : List DetailPatch
deriving DecidableEq, Repr

/-- QuerySet.update(**fields) for one matched OfferDetail row: exactly the
fields present in the entry (offer_type excluded) are overwritten. -/
def applyDetailPatch (d : OfferDetail) (p : DetailPatch) : OfferDetail :=
  { d with
    title := p.title.getD d.title
    revisions := p.revisions.getD d.revisions
    delivery_time_in_days := p.delivery_time_in_days.getD d.delivery_time_in_days
    price := p.price.getD d.price
    features := p.features.getD d.features }

/-- The details loop of OfferUpdateSerializer.update (offers_app/api/
serializers.py lines 204-208): for each entry, UPDATE the rows matching
(offer = instance, offer_type = entry type); when no row matches, the UPDATE
touches nothing. -/
def apply_detail_patches (oid : Nat) (ds : List OfferDetail)
    (ps : List DetailPatch) : List OfferDetail :=
  ps.foldl
    (fun acc p =>
      acc.map (fun d =>
        if d.offer = oid ∧ d.offer_type = p.offer_type then applyDetailPatch d p else d))
    ds

/-- PATCH /api/offers/(id)/ (OfferUpdateSerializer.update, offers_app/api/
serializers.py lines 186-210): offer-level fields update in place (user and
id are not in the serializer fields), then each detail entry is applied by
offer_type. -/
def offer_update (s : Store) (offerId : Nat) (patch : OfferPatch) : Store :=
  { s with
    offers := s.offers.map (fun o =>
      if o.id = offerId then
        { o with
          title := patch.title.getD o.title
          description := patch.description.getD o.description
          image := patch.image.getD o.image }
      else o)
    details := apply_detail_patches offerId s.details patch.details }

/-- DELETE /api/offers/(id)/: the Offer row goes, and on_delete=CASCADE
removes its OfferDetail rows and every Order referencing one of them. -/
def offer_delete (s : Store) (offerId : Nat) : Store :=
  { s with
    offers := s.offers.filter (fun o => decide (o.id ≠ offerId))
    details := s.details.filter (fun d => decide (d.offer ≠ offerId))
    orders := s.orders.filter (fun o =>
      decide (¬ ∃ d ∈ s.details, d.id = o.offer_detail ∧ d.offer = offerId)) }

/-- POST /api/orders/ (OrderCreateSerializer, orders_app/api/serializers.py
lines 43-85): the body carries only offer_detail_id; validation requires the
OfferDetail row to exist; create derives customer_user from the requesting
user and business_user from offer_detail.offer.user.  The inner none branch
is unreachable when FK integrity holds (every detail row has its offer). -/
def order_create (s : Store) (requester : Nat) (offerDetailId : Nat) : Store × Bool :=
  match s.details.find? (fun d => decide (d.id = offerDetailId)) with
  | none => (s, false)
  | some d =>
    match s.offers.find? (fun f => decide (f.id = d.offer)) with
    | none => (s, false)
    | some f =>
      ({ s with orders := s.orders ++
          [⟨freshId (s.orders.map Order.id), requester, f.user, d.id, OrderStatus.in_progress⟩] },
       true)

/-- A client PATCH body for an order, as a partial assignment of Order
columns the client might try to send. -/
structure OrderPatchInput where
  status : Option OrderStatus
  customer_user : Option Nat
  business_user : Option Nat
  offer_detail : Option Nat
deriving DecidableEq, Repr

/-- PATCH /api/orders/(id)/ (OrderStatusUpdateSerializer, orders_app/api/
serializers.py lines 88-96, applied by OrderViewSet.partial_update): the
serializer declares fields = ['status'], so every other key of the request
body is dropped; only status can change. -/
def order_status_update (s : Store) (orderId : Nat) (input : OrderPatchInput) : Store :=
  { s with orders := s.orders.map (fun o =>
      if o.id = orderId then { o with status := input.status.getD o.status } else o) }

/-- DELETE /api/orders/(id)/. -/
def order_delete (s : Store) (orderId : Nat) : Store :=
  { s with orders := s.orders.filter (fun o => decide (o.id ≠ orderId)) }

/-- POST /api/reviews/ (ReviewSerializer.validate, reviews_app/api/
serializers.py lines 25-46, and ReviewViewSet.create which saves with
reviewer=request.user): a POST is rejected with a ValidationError when the
requesting user already has a Review for that business user, and nothing is
written; otherwise the row is inserted. -/
def review_create (s : Store) (reviewer business : Nat) (rating : Int)
    (descr : String) : Store × Bool :=
  if s.reviews.any (fun r => decide (r.reviewer = reviewer ∧ r.business_user = business)) then
    (s, false)
  else
    ({ s with reviews := s.reviews ++
        [⟨freshId (s.reviews.map Review.id), business, reviewer, rating, descr⟩] },
     true)

/-- The mutating operations of the offers and orders apps, as issued by an
arbitrary (already authorized) client; the requester argument is the
authenticated user the server derives data from. -/
inductive Op where
  | offerCreate (userId : Nat) (title descr : String) (image : Option String)
      (details : List DetailData) (now : Nat) (failAt : Option Nat)
  | offerUpdate (offerId : Nat) (patch : OfferPatch)
  | offerDelete (offerId : Nat)
  | orderCreate (requester : Nat) (offerDetailId : Nat)
  | orderStatusUpdate (orderId : Nat) (input : OrderPatchInput)
  | orderDelete (orderId : Nat)

/-- One request against the store. -/
def step (s : Store) : Op → Store
  | .offerCreate userId title descr image details now failAt =>
      (offer_create s userId title descr image details now failAt).1
  | .offerUpdate offerId patch => offer_update s offerId patch
  | .offerDelete offerId => offer_delete s offerId
  | .orderCreate requester offerDetailId => (order_create s requester offerDetailId).1
  | .orderStatusUpdate orderId input => order_status_update s orderId input
  | .orderDelete orderId => order_delete s orderId

/-- A whole request history. -/
def exec (s : Store) (ops : List Op) : Store := ops.foldl step s

/-- Referential integrity of detail rows: every OfferDetail has its Offer. -/
def DetailFK (s : Store) : Prop :=
  ∀ d ∈ s.details, ∃ f ∈ s.offers, f.id = d.offer

/-- The C2 invariant: every order references an existing package whose
offer's owner is exactly the order's business_user. -/
def OrderLinked (s : Store) : Prop :=
  ∀ o ∈ s.orders, ∃ d ∈ s.details, d.id = o.offer_detail ∧
    ∃ f ∈ s.offers, f.id = d.offer ∧ f.user = o.business_user

/-- HTTP methods reaching the offer endpoints. -/
inductive Method where
  | get
  | head
  | options
  | post
  | patch
  | delete
deriving DecidableEq, Repr

/-- rest_framework.permissions.SAFE_METHODS. -/
def safeMethods : List Method := [.get, .head, .options]

/-- An incoming request: the authenticated user, if any, and the method. -/
structure Request where
  user : Option User
  method : Method
deriving DecidableEq, Repr

/-- IsAuthenticated.has_permission. -/
def is_authenticated (r : Request) : Bool := r.user.isSome

/-- IsBusinessUser.has_permission (offers_app/api/permissions.py lines 7-22):
safe methods pass; otherwise the user must be authenticated and of type
business. -/
def isBusinessUser_has_permission (r : Request) : Bool :=
  if safeMethods.contains r.method then true
  else
    match r.user with
    | none => false
    | some u => decide (u.type = UserType.business)

/-- IsOfferOwner.has_object_permission (offers_app/api/permissions.py lines
25-41): safe methods pass; otherwise obj.user must equal request.user (an
anonymous request never equals a model user). -/
def isOfferOwner_has_object_permission (r : Request) (o : Offer) : Bool :=
  if safeMethods.contains r.method then true
  else
    match r.user with
    | none => false
    | some u => decide (o.user = u.id)

/-- The permission conjunction OfferViewSet.get_permissions installs for the
update/partial_update/destroy actions (offers_app/api/views.py lines 41-51):
IsAuthenticated, IsBusinessUser, IsOfferOwner; DRF runs every
has_permission, then every has_object_permission, and denies if any check
fails. -/
def offer_edit_allowed (r : Request) (o : Offer) : Bool :=
  is_authenticated r && isBusinessUser_has_permission r
    && isOfferOwner_has_object_permission r o

/-- JSON values produced by the presentation layer. -/
inductive JValue where
  | null
  | str (s : String)
  | num (n : Int)
  | rat (q : ℚ)
  | arr (items : List JValue)
  | obj (fields : List (String × JValue))

/-- Key list of a serialized object. -/
def jKeys (fields : List (String × JValue)) : List String := fields.map Prod.fst

/-- Value under a key of a serialized object. -/
def jGet (fields : List (String × JValue)) (k : String) : Option JValue :=
  match fields.find? (fun kv => kv.fst == k) with
  | some kv => some kv.snd
  | none => none

/-- UserDetailsSerializer (offers_app/api/serializers.py lines 59-67). -/
def serialize_user_details (u : User) : List (String × JValue) :=
  [("first_name", .str u.first_name),
   ("last_name", .str u.last_name),
   ("username", .str u.username)]

/-- OfferDetailLinkSerializer (offers_app/api/serializers.py lines 35-56):
id plus a built URL path. -/
def serialize_detail_link (d : OfferDetail) : List (String × JValue) :=
  [("id", .num (d.id : Int)),
   ("url", .str ("/api/offerdetails/" ++ toString d.id ++ "/"))]

/-- OfferListSerializer.get_min_price over the offer's current packages. -/
def offer_min_price (ds : List OfferDetail) : Option ℚ :=
  match ds.map OfferDetail.price with
  | [] => none
  | p :: ps => some (ps.foldl min p)

/-- OfferListSerializer.get_min_delivery_time over the current packages. -/
def offer_min_delivery_time (ds : List OfferDetail) : Option Int :=
  match ds.map OfferDetail.delivery_time_in_days with
  | [] => none
  | t :: ts => some (ts.foldl min t)

/-- Render an Option as JSON null or a value. -/
def jOpt (f : α → JValue) : Option α → JValue
  | none => .null
  | some a => f a

/-- OfferListSerializer (offers_app/api/serializers.py lines 70-116), the
shape of one element of the GET /api/offers/ list: Meta.fields order, with
user_details nested via UserDetailsSerializer(source='user') and details as
link objects.  owner is the offer's user row; ds its packages. -/
def serialize_offer_list_item (o : Offer) (owner : User)
    (ds : List OfferDetail) : List (String × JValue) :=
  [("id", .num (o.id : Int)),
   ("user", .num (o.user : Int)),
   ("title", .str o.title),
   ("image", jOpt JValue.str o.image),
   ("description", .str o.description),
   ("created_at", .num (o.created_at : Int)),
   ("updated_at", .num (o.updated_at : Int)),
   ("details", .arr (ds.map (fun d => .obj (serialize_detail_link d)))),
   ("min_price", jOpt JValue.rat (offer_min_price ds)),
   ("min_delivery_time", jOpt JValue.num (offer_min_delivery_time ds)),
   ("user_details", .obj (serialize_user_details owner))]

/-- Modelled from the spec: OfferRetrieveSerializer is imported by
offers_app/api/views.py (get_serializer_class returns it for the retrieve
action) but its definition is absent from src/offers_app/api/serializers.py.
Per the spec, the single-item read renders the same link-object shape as the
list view but omits user_details; the tests test_retrieve_details_have_id_and_url
and test_retrieve_has_no_user_details check exactly this. -/
def serialize_offer_retrieve (o : Offer) (ds : List OfferDetail) :
    List (String × JValue) :=
  [("id", .num (o.id : Int)),
   ("user", .num (o.user : Int)),
   ("title", .str o.title),
   ("image", jOpt JValue.str o.image),
   ("description", .str o.description),
   ("created_at", .num (o.created_at : Int)),
   ("updated_at", .num (o.updated_at : Int)),
   ("details", .arr (ds.map (fun d => .obj (serialize_detail_link d)))),
   ("min_price", jOpt JValue.rat (offer_min_price ds)),
   ("min_delivery_time", jOpt JValue.num (offer_min_delivery_time ds))]

/-- UserProfileSerializer (accounts_app/api/serializers.py lines 94-117):
Meta.fields order; the identifier is exposed as user (IntegerField with
source='id'); the model's non-nullable text columns location, tel,
description, working_hours render as strings; created_at is listed while
updated_at is not. -/
def serialize_user_profile (u : User) : List (String × JValue) :=
  [("user", .num (u.id : Int)),
   ("username", .str u.username),
   ("first_name", .str u.first_name),
   ("last_name", .str u.last_name),
   ("file", jOpt JValue.str u.file),
   ("location", .str u.location),
   ("tel", .str u.tel),
   ("description", .str u.description),
   ("working_hours", .str u.working_hours),
   ("type", .str u.type.str),
   ("email", .str u.email),
   ("created_at", .num (u.created_at : Int))]

/-- RegistrationSerializer.create → User.objects.create_user (accounts_app/
api/serializers.py lines 61-76): only username, email, password and type are
set; every profile text column keeps its model default, the empty string. -/
def create_user (id : Nat) (username email : String) (t : UserType)
    (now : Nat) : User :=
  ⟨id, username, "", "", email, t, "", "", "", "", false, none, now, now⟩

/-- Python round-half-to-even to the nearest integer. -/
def roundHalfEven (q : ℚ) : ℤ :=
  if Int.fract q < 1/2 then ⌊q⌋
  else if 1/2 < Int.fract q then ⌊q⌋ + 1
  else if ⌊q⌋ % 2 = 0 then ⌊q⌋ else ⌊q⌋ + 1

/-- Python round(x, 1): round-half-to-even at one decimal place. -/
def pythonRound1 (q : ℚ) : ℚ := ((roundHalfEven (q * 10) : ℤ) : ℚ) / 10

/-- Review.objects.aggregate(Avg('rating')): SQL AVG is NULL over zero rows,
otherwise the arithmetic mean. -/
def avg_aggregate (reviews : List Review) : Option ℚ :=
  match reviews with
  | [] => none
  | _ => some ((reviews.map (fun r => (r.rating : ℚ))).sum / (reviews.length : ℚ))

/-- The GET /api/base-info/ payload. -/
structure BaseInfo where
  review_count : Nat
  average_rating : Option ℚ
  business_profile_count : Nat
  offer_count : Nat
deriving DecidableEq, Repr

/-- BaseInfoView.get (reviews_app/api/views.py lines 103-122): aggregate the
current rows; round the average to one decimal only when it is not None. -/
def base_info (s : Store) : BaseInfo :=
  { review_count := s.reviews.length
    average_rating :=
      match avg_aggregate s.reviews with
      | none => none
      | some x => some (pythonRound1 x)
    business_profile_count :=
      (s.users.filter (fun u => decide (u.type = UserType.business))).length
    offer_count := s.offers.length }

/-- OrderCountView.get (orders_app/api/views.py lines 131-145):
get_object_or_404(User, id=business_user_id, type='business'), then count the
orders with that business_user and status='in_progress'; none is the 404. -/
def order_count (s : Store) (business_user_id : Nat) : Option Nat :=
  match s.users.find? (fun u =>
      decide (u.id = business_user_id ∧ u.type = UserType.business)) with
  | none => none
  | some _ =>
    some ((s.orders.filter (fun o =>
      decide (o.business_user = business_user_id ∧
        o.status = OrderStatus.in_progress))).length)

/-- CompletedOrderCountView.get (orders_app/api/views.py lines 156-170):
same lookup, counting status='completed'. -/
def completed_order_count (s : Store) (business_user_id : Nat) : Option Nat :=
  match s.users.find? (fun u =>
      decide (u.id = business_user_id ∧ u.type = UserType.business)) with
  | none => none
  | some _ =>
    some ((s.orders.filter (fun o =>
      decide (o.business_user = business_user_id ∧
        o.status = OrderStatus.completed))).length)

/-- At most one review per (business_user, reviewer) pair, the
unique_together constraint of reviews_app/models.py lines 32-36. -/
def pairUnique (rs : List Review) : Prop :=
  List.Pairwise
    (fun a b => ¬(a.reviewer = b.reviewer ∧ a.business_user = b.business_user)) rs

/-- The columns of an OfferDetail row no update request can touch. -/
def detailSkel (d : OfferDetail) : Nat × Nat × OfferType := (d.id, d.offer, d.offer_type)

/-- The columns of an Offer row the update serializer cannot touch. -/
def offerIdUser (o : Offer) : Nat × Nat := (o.id, o.user)

/-- The columns of an Order row a status update cannot touch. -/
def orderKey (o : Order) : Nat × Nat × Nat × Nat :=
  (o.id, o.customer_user, o.business_user, o.offer_detail)

/-- The VALID_DETAILS fixture of offers_app/tests/test_api_offers.py. -/
def sampleDetails : List DetailData :=
  [⟨"Basic", 1, 3, 50, ["F1"], .basic⟩,
   ⟨"Standard", 3, 5, 100, ["F1", "F2"], .standard⟩,
   ⟨"Premium", 5, 7, 200, ["F1", "F2", "F3"], .premium⟩]

/-- C3: offer-creation validation of the package list succeeds if and only if
the submitted offer_type values are exactly three and form exactly one each of
basic, standard, premium (i.e. a permutation of that list: no duplicate, no
missing type, no other count); everything else fails validation. -/
theorem validate_details_ok_iff_one_of_each (types : List String) :
    validate_details types = true ↔
      types.Perm ["basic", "standard", "premium"] := by
  unfold validate_details
  rw [Bool.and_eq_true, decide_eq_true_eq, decide_eq_true_eq]
  constructor
  · rintro ⟨hset, hlen⟩
    have htarget : requiredTypes = (["basic", "standard", "premium"] : List String).toFinset := by
      decide
    rw [htarget] at hset
    have hperm : types.dedup.Perm (["basic", "standard", "premium"] : List String).dedup :=
      List.toFinset_eq_iff_perm_dedup.mp hset
    have hcard : types.dedup.length = 3 := by
      have h1 : types.toFinset.card = types.dedup.length := List.card_toFinset types
      rw [hset] at h1
      simpa using h1.symm
    have hded : types.dedup = types :=
      (List.dedup_sublist types).eq_of_length (by rw [hcard, hlen])
    have htd : (["basic", "standard", "premium"] : List String).dedup
        = ["basic", "standard", "premium"] := by decide
    rw [hded, htd] at hperm
    exact hperm
  · intro hperm
    refine ⟨?_, by simpa using hperm.length_eq⟩
    have : types.toFinset = (["basic", "standard", "premium"] : List String).toFinset :=
      List.toFinset_eq_iff_perm_dedup.mpr hperm.dedup
    rw [this]
    decide

/-- C6: the offer list view renders each offer with a nested user_details
object holding exactly first_name, last_name and username of the owner, while
the single-item read has no user_details key at all. -/
theorem offer_list_nests_user_details_retrieve_omits_it
    (o : Offer) (owner : User) (ds : List OfferDetail) :
    jGet (serialize_offer_list_item o owner ds) "user_details"
        = some (.obj [("first_name", .str owner.first_name),
                      ("last_name", .str owner.last_name),
                      ("username", .str owner.username)])
    ∧ jKeys (serialize_user_details owner) = ["first_name", "last_name", "username"]
    ∧ (jKeys (serialize_offer_retrieve o ds)).contains "user_details" = false := by
  refine ⟨?_, rfl, ?_⟩
  · rfl
  · rfl

/-- C9: every profile read exposes the identifier under the key user (the key
id does not occur); the four text profile fields location, tel, description
and working_hours always render as JSON strings (for a user fresh from
registration, as the empty string, never null); created_at is included and
updated_at is excluded. -/
theorem profile_read_shape :
    (∀ u : User,
      (jKeys (serialize_user_profile u)).contains "id" = false
      ∧ jGet (serialize_user_profile u) "user" = some (.num (u.id : Int))
      ∧ jGet (serialize_user_profile u) "location" = some (.str u.location)
      ∧ jGet (serialize_user_profile u) "tel" = some (.str u.tel)
      ∧ jGet (serialize_user_profile u) "description" = some (.str u.description)
      ∧ jGet (serialize_user_profile u) "working_hours" = some (.str u.working_hours)
      ∧ (jKeys (serialize_user_profile u)).contains "created_at" = true
      ∧ (jKeys (serialize_user_profile u)).contains "updated_at" = false)
    ∧ (∀ (id : Nat) (username email : String) (t : UserType) (now : Nat),
      jGet (serialize_user_profile (create_user id username email t now)) "location"
          = some (.str "")
      ∧ jGet (serialize_user_profile (create_user id username email t now)) "tel"
          = some (.str "")
      ∧ jGet (serialize_user_profile (create_user id username email t now)) "description"
          = some (.str "")
      ∧ jGet (serialize_user_profile (create_user id username email t now)) "working_hours"
          = some (.str "")) := by
  constructor
  · intro u
    exact ⟨rfl, rfl, rfl, rfl, rfl, rfl, rfl, rfl⟩
  · intro id username email t now
    exact ⟨rfl, rfl, rfl, rfl⟩

/-- C1: evaluation of the offer-creation path at a failing input.  With the
valid three-package request of the test fixture and the database rejecting
the second package INSERT, the code reports failure but leaves the committed
Offer row and the first Package row in the store, because
OfferCreateSerializer.create opens no transaction; the claim requires that
neither remain. -/
theorem offer_create_partial_state_on_package_insert_failure :
    offer_create emptyStore 1 "New" "Desc" none sampleDetails 7 (some 1)
      = (⟨[], [⟨1, 1, "New", none, "Desc", 7, 7⟩],
          [⟨1, 1, "Basic", 1, 3, 50, ["F1"], .basic⟩], [], []⟩, false) := by
  decide

/-- C5 counterexample: an authenticated principal of type customer who owns
the offer (user id 1, offer.user = 1) is denied a PATCH: ownership is not the
only condition beyond authentication, because IsBusinessUser also requires
type business on every non-safe method.  A customer owner is reachable since
the profile serializer leaves the type field writable. -/
theorem offer_edit_denied_for_authenticated_customer_owner :
    is_authenticated
        ⟨some ⟨1, "alice", "", "", "a@x.de", .customer, "", "", "", "", false, none, 0, 0⟩,
         .patch⟩ = true
    ∧ (⟨10, 1, "t", none, "d", 0, 0⟩ : Offer).user
        = (1 : Nat)
    ∧ offer_edit_allowed
        ⟨some ⟨1, "alice", "", "", "a@x.de", .customer, "", "", "", "", false, none, 0, 0⟩,
         .patch⟩
        ⟨10, 1, "t", none, "d", 0, 0⟩ = false := by
  decide

/-- C5 amended: for the non-safe offer actions (update, partial_update,
destroy), the request is allowed exactly when the principal is authenticated,
has type business, and is the offer's owner; in particular every
authenticated non-owner is denied, but so is an authenticated owner whose
type is not business. -/
theorem offer_edit_allowed_iff_business_owner (r : Request) (o : Offer)
    (h : safeMethods.contains r.method = false) :
    offer_edit_allowed r o = true ↔
      ∃ u, r.user = some u ∧ u.type = UserType.business ∧ o.user = u.id := by
  have hm : r.method ∉ safeMethods := by simpa using h
  cases hu : r.user with
  | none =>
    simp [offer_edit_allowed, is_authenticated, hu]
  | some u =>
    simp [offer_edit_allowed, is_authenticated, isBusinessUser_has_permission,
      isOfferOwner_has_object_permission, h, hu, hm]

/-- Witness for the amended C5 theorem at a concrete business owner. -/
theorem offer_edit_allowed_iff_business_owner_witness :
    offer_edit_allowed
        ⟨some ⟨2, "bob", "", "", "b@x.de", .business, "", "", "", "", false, none, 0, 0⟩,
         .patch⟩
        ⟨11, 2, "t", none, "d", 0, 0⟩ = true ↔
      ∃ u, (some ⟨2, "bob", "", "", "b@x.de", .business, "", "", "", "", false, none, 0, 0⟩
              : Option User) = some u
        ∧ u.type = UserType.business
        ∧ (⟨11, 2, "t", none, "d", 0, 0⟩ : Offer).user = u.id :=
  offer_edit_allowed_iff_business_owner
    ⟨some ⟨2, "bob", "", "", "b@x.de", .business, "", "", "", "", false, none, 0, 0⟩, .patch⟩
    ⟨11, 2, "t", none, "d", 0, 0⟩ (by decide)

/-- The two per-status counters partition the non-cancelled orders of a
business user: helper for C10. -/
theorem count_in_progress_add_completed (orders : List Order) (buid : Nat) :
    ((orders.filter (fun o =>
        decide (o.business_user = buid ∧ o.status = OrderStatus.in_progress))).length)
    + ((orders.filter (fun o =>
        decide (o.business_user = buid ∧ o.status = OrderStatus.completed))).length)
    = ((orders.filter (fun o =>
        decide (o.business_user = buid ∧ o.status ≠ OrderStatus.cancelled))).length) := by
  induction orders with
  | nil => rfl
  | cons o rest ih =>
    simp only [List.filter_cons]
    by_cases hb : o.business_user = buid
    · cases hst : o.status
      · rw [show decide (o.business_user = buid ∧
                OrderStatus.in_progress = OrderStatus.in_progress) = true by simp [hb],
            show decide (o.business_user = buid ∧
                OrderStatus.in_progress = OrderStatus.completed) = false by simp,
            show decide (o.business_user = buid ∧
                OrderStatus.in_progress ≠ OrderStatus.cancelled) = true by simp [hb]]
        simp only [reduceIte, Bool.false_eq_true, if_false, List.length_cons]
        omega
      · rw [show decide (o.business_user = buid ∧
                OrderStatus.completed = OrderStatus.in_progress) = false by simp,
            show decide (o.business_user = buid ∧
                OrderStatus.completed = OrderStatus.completed) = true by simp [hb],
            show decide (o.business_user = buid ∧
                OrderStatus.completed ≠ OrderStatus.cancelled) = true by simp [hb]]
        simp only [reduceIte, Bool.false_eq_true, if_false, List.length_cons]
        omega
      · rw [show decide (o.business_user = buid ∧
                OrderStatus.cancelled = OrderStatus.in_progress) = false by simp,
            show decide (o.business_user = buid ∧
                OrderStatus.cancelled = OrderStatus.completed) = false by simp,
            show decide (o.business_user = buid ∧
                OrderStatus.cancelled ≠ OrderStatus.cancelled) = false by simp]
        simp only [reduceIte, Bool.false_eq_true, if_false]
        omega
    · rw [show decide (o.business_user = buid ∧ o.status = OrderStatus.in_progress)
            = false by simp [hb],
          show decide (o.business_user = buid ∧ o.status = OrderStatus.completed)
            = false by simp [hb],
          show decide (o.business_user = buid ∧ o.status ≠ OrderStatus.cancelled)
            = false by simp [hb]]
      simp only [reduceIte, Bool.false_eq_true, if_false]
      omega

/-- C10: when the id resolves to a business user, the order-count endpoint
returns exactly the number of that user's orders with status in_progress, the
completed-order-count endpoint exactly those with status completed, and the
two counts together exhaust precisely the non-cancelled orders, so a
cancelled order is counted by neither and neither endpoint returns the total
order count. -/
theorem order_count_views_count_by_status (s : Store) (buid : Nat)
    (h : ∃ u ∈ s.users, u.id = buid ∧ u.type = UserType.business) :
    order_count s buid
      = some ((s.orders.filter (fun o =>
          decide (o.business_user = buid ∧ o.status = OrderStatus.in_progress))).length)
    ∧ completed_order_count s buid
      = some ((s.orders.filter (fun o =>
          decide (o.business_user = buid ∧ o.status = OrderStatus.completed))).length)
    ∧ ((s.orders.filter (fun o =>
          decide (o.business_user = buid ∧ o.status = OrderStatus.in_progress))).length)
      + ((s.orders.filter (fun o =>
          decide (o.business_user = buid ∧ o.status = OrderStatus.completed))).length)
      = ((s.orders.filter (fun o =>
          decide (o.business_user = buid ∧ o.status ≠ OrderStatus.cancelled))).length) := by
  have hsome : (s.users.find? (fun u =>
      decide (u.id = buid ∧ u.type = UserType.business))).isSome := by
    rw [List.find?_isSome]
    rcases h with ⟨u, hu, h1, h2⟩
    exact ⟨u, hu, by simp [h1, h2]⟩
  rcases Option.isSome_iff_exists.mp hsome with ⟨v, hv⟩
  refine ⟨?_, ?_, count_in_progress_add_completed s.orders buid⟩
  · unfold order_count
    rw [hv]
  · unfold completed_order_count
    rw [hv]

/-- Witness for C10 at a concrete store: one business user with one order of
each status; the counters return 1 and 1, and 1 + 1 counts the two
non-cancelled orders. -/
theorem order_count_views_count_by_status_witness :
    order_count
        ⟨[⟨5, "biz", "", "", "b@x.de", .business, "", "", "", "", false, none, 0, 0⟩],
         [], [],
         [⟨1, 9, 5, 3, .in_progress⟩, ⟨2, 9, 5, 3, .completed⟩, ⟨3, 9, 5, 3, .cancelled⟩],
         []⟩ 5
      = some 1 := by
  have h := order_count_views_count_by_status
    ⟨[⟨5, "biz", "", "", "b@x.de", .business, "", "", "", "", false, none, 0, 0⟩],
     [], [],
     [⟨1, 9, 5, 3, .in_progress⟩, ⟨2, 9, 5, 3, .completed⟩, ⟨3, 9, 5, 3, .cancelled⟩],
     []⟩ 5
    ⟨⟨5, "biz", "", "", "b@x.de", .business, "", "", "", "", false, none, 0, 0⟩,
     by decide, by decide, by decide⟩
  rw [h.1]
  decide

/-- C4: a review-creation attempt by a reviewer who already has a review for
that business user fails as a validation failure and leaves the store exactly
as it was (the existing review is unaffected); and review creation preserves
at-most-one-review-per-(business_user, reviewer)-pair. -/
theorem review_create_unique_per_pair :
    (∀ (s : Store) (reviewer business : Nat) (rating : Int) (descr : String),
      (∃ r ∈ s.reviews, r.reviewer = reviewer ∧ r.business_user = business) →
        review_create s reviewer business rating descr = (s, false))
    ∧ (∀ (s : Store) (reviewer business : Nat) (rating : Int) (descr : String),
      pairUnique s.reviews →
        pairUnique (review_create s reviewer business rating descr).1.reviews) := by
  constructor
  · intro s reviewer business rating descr h
    unfold review_create
    rw [if_pos]
    rw [List.any_eq_true]
    rcases h with ⟨r, hr, h1, h2⟩
    exact ⟨r, hr, by simp [h1, h2]⟩
  · intro s reviewer business rating descr h
    unfold review_create
    by_cases hdup : s.reviews.any
        (fun r => decide (r.reviewer = reviewer ∧ r.business_user = business)) = true
    · rw [if_pos hdup]
      exact h
    · rw [if_neg hdup]
      have hnone : ∀ r ∈ s.reviews, ¬(r.reviewer = reviewer ∧ r.business_user = business) := by
        intro r hr
        rcases List.any_eq_false.mp (Bool.eq_false_iff.mpr hdup) r hr with hfalse
        simpa using hfalse
      unfold pairUnique
      rw [List.pairwise_append]
      refine ⟨h, List.pairwise_singleton _ _, ?_⟩
      intro a ha b hb
      have hbval : b = ⟨freshId (s.reviews.map Review.id), business, reviewer, rating, descr⟩ := by
        simpa using hb
      subst hbval
      intro hcontra
      exact hnone a ha ⟨hcontra.1, hcontra.2⟩

/-- Witness for C4 at a concrete store: reviewer 2 already reviewed business
user 1, so a second attempt returns the store unchanged with failure, and
uniqueness of pairs is preserved by a fresh creation. -/
theorem review_create_unique_per_pair_witness :
    review_create ⟨[], [], [], [], [⟨1, 1, 2, 5, "great"⟩]⟩ 2 1 1 "spam"
      = (⟨[], [], [], [], [⟨1, 1, 2, 5, "great"⟩]⟩, false)
    ∧ pairUnique (review_create ⟨[], [], [], [], [⟨1, 1, 2, 5, "great"⟩]⟩ 3 1 4 "ok").1.reviews :=
  ⟨review_create_unique_per_pair.1 ⟨[], [], [], [], [⟨1, 1, 2, 5, "great"⟩]⟩ 2 1 1 "spam"
      ⟨⟨1, 1, 2, 5, "great"⟩, by decide, by decide, by decide⟩,
   review_create_unique_per_pair.2 ⟨[], [], [], [], [⟨1, 1, 2, 5, "great"⟩]⟩ 3 1 4 "ok"
      (by unfold pairUnique; decide)⟩

/-- Applying detail patches never adds or removes a package row. -/
theorem apply_detail_patches_length (oid : Nat) (ps : List DetailPatch) :
    ∀ ds : List OfferDetail, (apply_detail_patches oid ds ps).length = ds.length := by
  induction ps with
  | nil => intro ds; rfl
  | cons p ps ih =>
    intro ds
    show (apply_detail_patches oid (ds.map _) ps).length = ds.length
    rw [ih, List.length_map]

/-- C7: an offer-update package entry is matched by its offer_type to the
existing package with the same (offer, offer_type) pair; the matched package
receives exactly the fields present in the entry while absent fields keep
their old values; packages of the offer with a different type, and packages
of other offers, are untouched; an entry whose type matches no package of the
offer changes nothing; and no update ever adds a package. -/
theorem offer_update_merges_packages_by_type (s : Store) (oid : Nat) (p : DetailPatch) :
    (∀ patch : OfferPatch,
        (offer_update s oid patch).details.length = s.details.length)
    ∧ ((∀ d ∈ s.details, ¬(d.offer = oid ∧ d.offer_type = p.offer_type)) →
        (offer_update s oid ⟨none, none, none, [p]⟩).details = s.details)
    ∧ (∀ d ∈ s.details, d.offer = oid → d.offer_type = p.offer_type →
        applyDetailPatch d p ∈ (offer_update s oid ⟨none, none, none, [p]⟩).details
        ∧ (p.title = none → (applyDetailPatch d p).title = d.title)
        ∧ (p.revisions = none → (applyDetailPatch d p).revisions = d.revisions)
        ∧ (p.delivery_time_in_days = none →
            (applyDetailPatch d p).delivery_time_in_days = d.delivery_time_in_days)
        ∧ (p.price = none → (applyDetailPatch d p).price = d.price)
        ∧ (p.features = none → (applyDetailPatch d p).features = d.features))
    ∧ (∀ d ∈ s.details, ¬(d.offer = oid ∧ d.offer_type = p.offer_type) →
        d ∈ (offer_update s oid ⟨none, none, none, [p]⟩).details) := by
  have hsingle : (offer_update s oid ⟨none, none, none, [p]⟩).details
      = s.details.map (fun d =>
          if d.offer = oid ∧ d.offer_type = p.offer_type then applyDetailPatch d p else d) :=
    rfl
  refine ⟨?_, ?_, ?_, ?_⟩
  · intro patch
    exact apply_detail_patches_length oid patch.details s.details
  · intro hnone
    rw [hsingle]
    have : s.details.map (fun d =>
        if d.offer = oid ∧ d.offer_type = p.offer_type then applyDetailPatch d p else d)
        = s.details.map id := by
      apply List.map_congr_left
      intro d hd
      exact if_neg (hnone d hd)
    rw [this, List.map_id]
  · intro d hd h1 h2
    refine ⟨?_, ?_, ?_, ?_, ?_, ?_⟩
    · rw [hsingle]
      have : applyDetailPatch d p
          = (fun d => if d.offer = oid ∧ d.offer_type = p.offer_type
              then applyDetailPatch d p else d) d := by
        show applyDetailPatch d p
          = if d.offer = oid ∧ d.offer_type = p.offer_type then applyDetailPatch d p else d
        rw [if_pos ⟨h1, h2⟩]
      rw [this]
      exact List.mem_map_of_mem _ hd
    · intro hnone; simp [applyDetailPatch, hnone]
    · intro hnone; simp [applyDetailPatch, hnone]
    · intro hnone; simp [applyDetailPatch, hnone]
    · intro hnone; simp [applyDetailPatch, hnone]
    · intro hnone; simp [applyDetailPatch, hnone]
  · intro d hd hno
    rw [hsingle]
    have : d = (fun d => if d.offer = oid ∧ d.offer_type = p.offer_type
        then applyDetailPatch d p else d) d := by
      show d = if d.offer = oid ∧ d.offer_type = p.offer_type then applyDetailPatch d p else d
      rw [if_neg hno]
    rw [this]
    exact List.mem_map_of_mem _ hd

/-- Witness for C7: one matched and one unmatched package in a two-offer
store; hypotheses discharged at concrete rows. -/
theorem offer_update_merges_packages_by_type_witness :
    applyDetailPatch ⟨1, 4, "Basic", 1, 3, 50, ["F1"], .basic⟩
        ⟨OfferType.basic, some "B2", none, none, none, none⟩
      ∈ (offer_update
          ⟨[], [⟨4, 9, "t", none, "d", 0, 0⟩],
           [⟨1, 4, "Basic", 1, 3, 50, ["F1"], .basic⟩,
            ⟨2, 4, "Std", 2, 5, 100, ["F2"], .standard⟩], [], []⟩ 4
          ⟨none, none, none, [⟨OfferType.basic, some "B2", none, none, none, none⟩]⟩).details
    ∧ (applyDetailPatch ⟨1, 4, "Basic", 1, 3, 50, ["F1"], .basic⟩
        ⟨OfferType.basic, some "B2", none, none, none, none⟩).revisions = 1 :=
  by
  have h := (offer_update_merges_packages_by_type
      ⟨[], [⟨4, 9, "t", none, "d", 0, 0⟩],
       [⟨1, 4, "Basic", 1, 3, 50, ["F1"], .basic⟩,
        ⟨2, 4, "Std", 2, 5, 100, ["F2"], .standard⟩], [], []⟩ 4
      ⟨OfferType.basic, some "B2", none, none, none, none⟩).2.2.1
      ⟨1, 4, "Basic", 1, 3, 50, ["F1"], .basic⟩ (by decide) (by decide) (by decide)
  exact ⟨h.1, h.2.2.1 (by decide)⟩

/-- Round-half-to-even lands within one half of its argument. -/
theorem roundHalfEven_abs_sub_le (q : ℚ) : |((roundHalfEven q : ℤ) : ℚ) - q| ≤ 1 / 2 := by
  have hfl : ((⌊q⌋ : ℤ) : ℚ) + Int.fract q = q := Int.floor_add_fract q
  have h0 : (0 : ℚ) ≤ Int.fract q := Int.fract_nonneg q
  have h1 : Int.fract q < 1 := Int.fract_lt_one q
  unfold roundHalfEven
  split_ifs with hlt hgt hev
  · rw [abs_le]; constructor <;> linarith
  · push_cast; rw [abs_le]; constructor <;> linarith
  · rw [abs_le]; constructor <;> linarith
  · push_cast; rw [abs_le]; constructor <;> linarith

/-- Python round(x, 1) lands within 1/20 of its argument. -/
theorem pythonRound1_abs_sub_le (q : ℚ) : |pythonRound1 q - q| ≤ 1 / 20 := by
  have h := roundHalfEven_abs_sub_le (q * 10)
  unfold pythonRound1
  have heq : ((roundHalfEven (q * 10) : ℤ) : ℚ) / 10 - q
      = (((roundHalfEven (q * 10) : ℤ) : ℚ) - q * 10) / 10 := by ring
  rw [heq, abs_div, show |(10 : ℚ)| = 10 by norm_num]
  linarith

/-- C8: the aggregate endpoint computes average_rating from the current
review rows on each request; it is null exactly when there are zero reviews
(no division by zero happens), and otherwise it is the arithmetic mean of all
current ratings rounded to one decimal place: a multiple of 1/10 within 1/20
of the true mean. -/
theorem base_info_average_rating_rounded_mean :
    (∀ s : Store, ((base_info s).average_rating = none ↔ s.reviews = []))
    ∧ (∀ (s : Store) (x : ℚ), (base_info s).average_rating = some x →
        x = pythonRound1
            ((s.reviews.map (fun r => (r.rating : ℚ))).sum / (s.reviews.length : ℚ))
        ∧ |x - (s.reviews.map (fun r => (r.rating : ℚ))).sum / (s.reviews.length : ℚ)|
            ≤ 1 / 20
        ∧ ∃ k : ℤ, x = (k : ℚ) / 10) := by
  constructor
  · intro s
    unfold base_info avg_aggregate
    cases s.reviews with
    | nil => simp
    | cons r rs => simp
  · intro s x h
    unfold base_info avg_aggregate at h
    cases hrev : s.reviews with
    | nil => rw [hrev] at h; simp at h
    | cons r rs =>
      rw [hrev] at h
      simp only [Option.some.injEq] at h
      refine ⟨h.symm, ?_, ?_⟩
      · rw [← h]
        exact pythonRound1_abs_sub_le _
      · exact ⟨roundHalfEven
          ((((r :: rs).map (fun r => (r.rating : ℚ))).sum / ((r :: rs).length : ℚ)) * 10),
          h.symm⟩

/-- Witness for C8 at a store with a single rating of 5: the endpoint
returns 5, which is the rounded mean, within 1/20 of it, and a multiple
of 1/10. -/
theorem base_info_average_rating_rounded_mean_witness :
    (5 : ℚ) = pythonRound1
        ((([⟨1, 1, 2, 5, "great"⟩] : List Review).map (fun r => (r.rating : ℚ))).sum
          / (([⟨1, 1, 2, 5, "great"⟩] : List Review).length : ℚ))
    ∧ |(5 : ℚ) - (([⟨1, 1, 2, 5, "great"⟩] : List Review).map (fun r => (r.rating : ℚ))).sum
          / (([⟨1, 1, 2, 5, "great"⟩] : List Review).length : ℚ)| ≤ 1 / 20
    ∧ ∃ k : ℤ, (5 : ℚ) = (k : ℚ) / 10 :=
  base_info_average_rating_rounded_mean.2
    ⟨[], [], [], [], [⟨1, 1, 2, 5, "great"⟩]⟩ 5
    (by norm_num [base_info, avg_aggregate, pythonRound1, roundHalfEven, Int.fract])

/-- Transfer of membership along an image equality. -/
theorem mem_of_map_eq {α β : Type} (f : α → β) {l₁ l₂ : List α}
    (h : l₁.map f = l₂.map f) : ∀ a ∈ l₂, ∃ b ∈ l₁, f b = f a := by
  intro a ha
  have hmem : f a ∈ l₁.map f := by
    rw [h]
    exact List.mem_map_of_mem f ha
  rcases List.mem_map.mp hmem with ⟨b, hb, hfb⟩
  exact ⟨b, hb, hfb⟩

/-- Detail patches touch neither id, nor offer, nor offer_type of any row. -/
theorem apply_detail_patches_skel (oid : Nat) (ps : List DetailPatch) :
    ∀ ds : List OfferDetail,
      (apply_detail_patches oid ds ps).map detailSkel = ds.map detailSkel := by
  induction ps with
  | nil => intro ds; rfl
  | cons p ps ih =>
    intro ds
    show (apply_detail_patches oid (ds.map _) ps).map detailSkel = ds.map detailSkel
    rw [ih, List.map_map]
    apply List.map_congr_left
    intro d _
    show detailSkel (if d.offer = oid ∧ d.offer_type = p.offer_type
        then applyDetailPatch d p else d) = detailSkel d
    split <;> rfl

/-- The detail-insert loop: other tables are untouched, existing detail rows
stay, and every new detail row belongs to the given offer. -/
theorem insert_details_spec (oid : Nat) (failAt : Option Nat) :
    ∀ (ds : List DetailData) (idx : Nat) (s : Store),
      ((insert_details s oid idx failAt ds).1.users = s.users)
      ∧ ((insert_details s oid idx failAt ds).1.offers = s.offers)
      ∧ ((insert_details s oid idx failAt ds).1.orders = s.orders)
      ∧ ((insert_details s oid idx failAt ds).1.reviews = s.reviews)
      ∧ (∀ d ∈ s.details, d ∈ (insert_details s oid idx failAt ds).1.details)
      ∧ (∀ d ∈ (insert_details s oid idx failAt ds).1.details,
          d ∈ s.details ∨ d.offer = oid) := by
  intro ds
  induction ds with
  | nil =>
    intro idx s
    exact ⟨rfl, rfl, rfl, rfl, fun d hd => hd, fun d hd => Or.inl hd⟩
  | cons d0 rest ih =>
    intro idx s
    show (insert_details s oid idx failAt (d0 :: rest)).1.users = s.users ∧ _
    unfold insert_details
    split
    · exact ⟨rfl, rfl, rfl, rfl, fun d hd => hd, fun d hd => Or.inl hd⟩
    · rcases ih (idx + 1)
        { s with details :=
            s.details ++ [mkOfferDetail (freshId (s.details.map OfferDetail.id)) oid d0] }
        with ⟨h1, h2, h3, h4, h5, h6⟩
      refine ⟨h1, h2, h3, h4, ?_, ?_⟩
      · intro d hd
        exact h5 d (List.mem_append_left _ hd)
      · intro d hd
        rcases h6 d hd with hin | hoff
        · rcases List.mem_append.mp hin with hold | hnew
          · exact Or.inl hold
          · have : d = mkOfferDetail (freshId (s.details.map OfferDetail.id)) oid d0 := by
              simpa using hnew
            exact Or.inr (by rw [this]; rfl)
        · exact Or.inr hoff

/-- Offer creation preserves referential integrity and the order-owner link
regardless of where the package-insert sequence fails. -/
theorem pres_offer_create (s : Store) (userId : Nat) (title descr : String)
    (image : Option String) (details : List DetailData) (now : Nat)
    (failAt : Option Nat) (hfk : DetailFK s) (hol : OrderLinked s) :
    DetailFK (offer_create s userId title descr image details now failAt).1
    ∧ OrderLinked (offer_create s userId title descr image details now failAt).1 := by
  unfold offer_create
  split
  · rcases insert_details_spec (freshId (s.offers.map Offer.id)) failAt details 0
      { s with offers := s.offers ++
          [⟨freshId (s.offers.map Offer.id), userId, title, image, descr, now, now⟩] }
      with ⟨_, h2, h3, _, h5, h6⟩
    constructor
    · intro d hd
      rcases h6 d hd with hold | hnew
      · rcases hfk d hold with ⟨f, hf, hfid⟩
        exact ⟨f, by rw [h2]; exact List.mem_append_left _ hf, hfid⟩
      · refine ⟨⟨freshId (s.offers.map Offer.id), userId, title, image, descr, now, now⟩,
          by rw [h2]; exact List.mem_append_right _ (by simp), ?_⟩
        rw [hnew]
    · intro o ho
      rw [h3] at ho
      rcases hol o ho with ⟨d, hd, hdid, f, hf, hfid, hfu⟩
      exact ⟨d, h5 d hd, hdid, f,
        by rw [h2]; exact List.mem_append_left _ hf, hfid, hfu⟩
  · exact ⟨hfk, hol⟩

/-- Offer update preserves referential integrity and the order-owner link:
the update serializer cannot change an offer's user nor a package's offer or
type. -/
theorem pres_offer_update (s : Store) (oid : Nat) (patch : OfferPatch)
    (hfk : DetailFK s) (hol : OrderLinked s) :
    DetailFK (offer_update s oid patch) ∧ OrderLinked (offer_update s oid patch) := by
  have hof : (offer_update s oid patch).offers.map offerIdUser
      = s.offers.map offerIdUser := by
    show (s.offers.map _).map offerIdUser = s.offers.map offerIdUser
    rw [List.map_map]
    apply List.map_congr_left
    intro o _
    show offerIdUser (if o.id = oid then _ else o) = offerIdUser o
    split <;> rfl
  have hdet : (offer_update s oid patch).details.map detailSkel
      = s.details.map detailSkel :=
    apply_detail_patches_skel oid patch.details s.details
  constructor
  · intro d hd
    rcases mem_of_map_eq detailSkel hdet.symm d hd with ⟨b, hb, hskel⟩
    have hboff : b.offer = d.offer := congrArg (fun x => x.2.1) hskel
    rcases hfk b hb with ⟨f, hf, hfid⟩
    rcases mem_of_map_eq offerIdUser hof f hf with ⟨f', hf', hiu⟩
    have hfid' : f'.id = f.id := congrArg (fun x => x.1) hiu
    exact ⟨f', hf', by rw [hfid', hfid, hboff]⟩
  · intro o ho
    have ho' : o ∈ s.orders := ho
    rcases hol o ho' with ⟨d, hd, hdid, f, hf, hfid, hfu⟩
    rcases mem_of_map_eq detailSkel hdet d hd with ⟨d', hd', hskel⟩
    rcases mem_of_map_eq offerIdUser hof f hf with ⟨f', hf', hiu⟩
    have hid1 : d'.id = d.id := congrArg (fun x => x.1) hskel
    have hoff1 : d'.offer = d.offer := congrArg (fun x => x.2.1) hskel
    have hfid1 : f'.id = f.id := congrArg (fun x => x.1) hiu
    have hfu1 : f'.user = f.user := congrArg (fun x => x.2) hiu
    refine ⟨d', hd', ?_, f', hf', ?_, ?_⟩
    · rw [hid1, hdid]
    · rw [hfid1, hfid, hoff1]
    · rw [hfu1, hfu]

/-- Offer deletion cascades to the offer's packages and to the orders
referencing them, preserving both invariants. -/
theorem pres_offer_delete (s : Store) (oid : Nat)
    (hfk : DetailFK s) (hol : OrderLinked s) :
    DetailFK (offer_delete s oid) ∧ OrderLinked (offer_delete s oid) := by
  constructor
  · intro d hd
    rcases List.mem_filter.mp hd with ⟨hds, hpred⟩
    have hdo : d.offer ≠ oid := by simpa using hpred
    rcases hfk d hds with ⟨f, hf, hfid⟩
    exact ⟨f, List.mem_filter.mpr ⟨hf, by simp [hfid, hdo]⟩, hfid⟩
  · intro o ho
    rcases List.mem_filter.mp ho with ⟨hos, hpred⟩
    have hno : ¬∃ d ∈ s.details, d.id = o.offer_detail ∧ d.offer = oid := by
      simpa using hpred
    rcases hol o hos with ⟨d, hd, hdid, f, hf, hfid, hfu⟩
    have hdo : d.offer ≠ oid := by
      intro hcontra
      exact hno ⟨d, hd, hdid, hcontra⟩
    refine ⟨d, List.mem_filter.mpr ⟨hd, by simp [hdo]⟩, hdid,
      f, List.mem_filter.mpr ⟨hf, by simp [hfid, hdo]⟩, hfid, hfu⟩

/-- Order creation derives business_user from the found package's offer's
user, preserving both invariants. -/
theorem pres_order_create (s : Store) (requester offerDetailId : Nat)
    (hfk : DetailFK s) (hol : OrderLinked s) :
    DetailFK (order_create s requester offerDetailId).1
    ∧ OrderLinked (order_create s requester offerDetailId).1 := by
  unfold order_create
  cases hfind : s.details.find? (fun d => decide (d.id = offerDetailId)) with
  | none => exact ⟨hfk, hol⟩
  | some d =>
    dsimp only
    cases hfind2 : s.offers.find? (fun f => decide (f.id = d.offer)) with
    | none => exact ⟨hfk, hol⟩
    | some f =>
      dsimp only
      have hd : d ∈ s.details := List.mem_of_find?_eq_some hfind
      have hf : f ∈ s.offers := List.mem_of_find?_eq_some hfind2
      have hfid : f.id = d.offer := by
        have := List.find?_some hfind2
        simpa using this
      refine ⟨hfk, ?_⟩
      intro o ho
      rcases List.mem_append.mp ho with hold | hnew
      · exact hol o hold
      · have : o = ⟨freshId (s.orders.map Order.id), requester, f.user, d.id,
            OrderStatus.in_progress⟩ := by simpa using hnew
        rw [this]
        exact ⟨d, hd, rfl, f, hf, hfid, rfl⟩

/-- A status update maps every order row to one with the same id, users and
package reference, preserving both invariants. -/
theorem pres_order_status_update (s : Store) (orderId : Nat)
    (input : OrderPatchInput) (hfk : DetailFK s) (hol : OrderLinked s) :
    DetailFK (order_status_update s orderId input)
    ∧ OrderLinked (order_status_update s orderId input) := by
  have hok : (order_status_update s orderId input).orders.map orderKey
      = s.orders.map orderKey := by
    show (s.orders.map _).map orderKey = s.orders.map orderKey
    rw [List.map_map]
    apply List.map_congr_left
    intro o _
    show orderKey (if o.id = orderId then _ else o) = orderKey o
    split <;> rfl
  refine ⟨hfk, ?_⟩
  intro o' ho'
  rcases mem_of_map_eq orderKey hok.symm o' ho' with ⟨o, ho, hkey⟩
  have hbu : o.business_user = o'.business_user :=
    congrArg (fun x => x.2.2.1) hkey
  have hod : o.offer_detail = o'.offer_detail :=
    congrArg (fun x => x.2.2.2) hkey
  rcases hol o ho with ⟨d, hd, hdid, f, hf, hfid, hfu⟩
  exact ⟨d, hd, by rw [hdid, hod], f, hf, hfid, by rw [hfu, hbu]⟩

/-- Order deletion removes rows, preserving both invariants. -/
theorem pres_order_delete (s : Store) (orderId : Nat)
    (hfk : DetailFK s) (hol : OrderLinked s) :
    DetailFK (order_delete s orderId) ∧ OrderLinked (order_delete s orderId) := by
  refine ⟨hfk, ?_⟩
  intro o ho
  exact hol o (List.mem_filter.mp ho).1

/-- Every request history preserves the conjunction of the two invariants. -/
theorem exec_preserves_invariants (ops : List Op) :
    ∀ s : Store, DetailFK s → OrderLinked s →
      DetailFK (exec s ops) ∧ OrderLinked (exec s ops) := by
  induction ops with
  | nil => intro s hfk hol; exact ⟨hfk, hol⟩
  | cons op ops ih =>
    intro s hfk hol
    show DetailFK (exec (step s op) ops) ∧ OrderLinked (exec (step s op) ops)
    have hstep : DetailFK (step s op) ∧ OrderLinked (step s op) := by
      cases op with
      | offerCreate userId title descr image details now failAt =>
        exact pres_offer_create s userId title descr image details now failAt hfk hol
      | offerUpdate offerId patch => exact pres_offer_update s offerId patch hfk hol
      | offerDelete offerId => exact pres_offer_delete s offerId hfk hol
      | orderCreate requester offerDetailId =>
        exact pres_order_create s requester offerDetailId hfk hol
      | orderStatusUpdate orderId input =>
        exact pres_order_status_update s orderId input hfk hol
      | orderDelete orderId => exact pres_order_delete s orderId hfk hol
    exact ih (step s op) hstep.1 hstep.2

/-- C2: in every store reachable by any request history from the empty
database, every order's business_user equals the user of the offer owning the
referenced package (order creation takes only a package identifier and
derives both user references server-side); and a status-update request, whose
serializer admits only the status field, maps every order row to one with
identical id, customer_user, business_user and offer_detail no matter what
the client sends. -/
theorem orders_business_user_is_offer_owner :
    (∀ ops : List Op, OrderLinked (exec emptyStore ops))
    ∧ (∀ (s : Store) (orderId : Nat) (input : OrderPatchInput),
        (order_status_update s orderId input).orders.map orderKey
          = s.orders.map orderKey) := by
  constructor
  · intro ops
    have hempty1 : DetailFK emptyStore := by
      intro d hd
      exact absurd hd (List.not_mem_nil d)
    have hempty2 : OrderLinked emptyStore := by
      intro o ho
      exact absurd ho (List.not_mem_nil o)
    exact (exec_preserves_invariants ops emptyStore hempty1 hempty2).2
  · intro s orderId input
    show (s.orders.map _).map orderKey = s.orders.map orderKey
    rw [List.map_map]
    apply List.map_congr_left
    intro o _
    show orderKey (if o.id = orderId then _ else o) = orderKey o
    split <;> rfl

end Coderr
